import Mathlib

/-!
Verification of `go-search` (`src/cmd/search.go`), a command-line utility that
recursively searches a directory tree for entries whose base name matches a
glob pattern.

The development shallowly embeds the Go source:

* `ParseFlags` embeds the flag/positional parser `ParseFlags` (search.go:22-56).
  A help token makes the Go program print usage and call `os.Exit(0)`; this is
  modelled by the distinguished outcome `ParseResult.helpExit`.
* The filesystem is modelled by `FSNode`/`FSRoot`: a file, or a directory
  whose recursive read either succeeds (`readErr = none`, yielding children)
  or fails with a per-entry error (`readErr = some k`, children inaccessible).
  A missing root (`FSRoot.missing`) models a failing `os.Lstat` at the root.
* `walkNode`/`walkChildren`/`goWalkDirTop` embed the semantics of Go's
  `filepath.WalkDir`: the callback is called once per successfully discovered
  entry, a failing directory read triggers a second callback call carrying the
  error, a callback result of `SkipDir` prunes the subtree (resp. stops the
  sibling loop), and a plain error aborts the walk and is returned.
  `fs.SkipAll` is omitted: the embedded callback never produces it.
* `searchCb` embeds the `filepath.WalkDir` callback of `Search`
  (search.go:64-108) and `matchTask` embeds the body of the goroutine it
  spawns (search.go:89-106).  The goroutine captures the `pattern` variable of
  `Search` by reference and assigns to it (`pattern = strings.ToLower(pattern)`),
  so the walk state `SearchState` carries `pattern` as a mutable field next to
  the `matches` accumulator.  Matches and diagnostic output are collected in
  discovery order: this sequential collapse of the goroutine fan-out is sound
  for the set-level properties proved below because the search joins all tasks
  before returning and every task appends at most its own path.
* The glob matcher (`filepath.Match`) is platform library code, not part of
  this repository; it is a parameter `m : String → String → Option Bool` of
  the embedded engine (`none` models a `filepath.ErrBadPattern` result, which
  the source treats as "no match").  `strings.ToLower` is modelled on the
  ASCII range by `toLowerStr`, and `filepath.Base`/`filepath.Join` by
  `goBase`/`joinPath` in their slash-separated form.
* `mainRun`/`exitCode` embed `main` (search.go:119-151): a parse error prints
  usage and exits 1; a non-nil search error merely prints and returns from
  `main` (exit code 0); otherwise the match list (or the no-match line) is
  printed.
-/

/-- ErrKind classifies a filesystem error reported by the traversal
primitive: an access-denied error (recognized via `syscall.ERROR_ACCESS_DENIED`
in the source) or any other error, carrying its rendered message. -/
inductive ErrKind where
  | accessDenied
  | other (msg : String)
deriving DecidableEq, Repr

/-- FSNode models one filesystem entry: a file, or a directory whose
recursive enumeration either succeeds (`readErr = none`) and yields
`children`, or fails with `readErr = some k`, in which case its children are
inaccessible to the walk. -/
inductive FSNode where
  | file (name : String)
  | dir (name : String) (readErr : Option ErrKind) (children : List FSNode)

/-- FSNode.name is the base name of the entry within its parent. -/
def FSNode.name : FSNode → String
  | .file n => n
  | .dir n _ _ => n

/-- FSRoot models the root of the walk: either the root path resolves to an
entry, or the initial `os.Lstat` fails (root does not exist) with the given
error. -/
inductive FSRoot where
  | missing (k : ErrKind)
  | present (node : FSNode)

/-- joinPath models `filepath.Join(dir, name)` for the cleaned, nonempty
arguments produced by the walk. -/
def joinPath (dir name : String) : String := dir ++ "/" ++ name

/-- asciiUpperLower lists the ASCII uppercase letters with their lowercase
counterparts. -/
def asciiUpperLower : List (Char × Char) :=
  [('A','a'),('B','b'),('C','c'),('D','d'),('E','e'),('F','f'),('G','g'),
   ('H','h'),('I','i'),('J','j'),('K','k'),('L','l'),('M','m'),('N','n'),
   ('O','o'),('P','p'),('Q','q'),('R','r'),('S','s'),('T','t'),('U','u'),
   ('V','v'),('W','w'),('X','x'),('Y','y'),('Z','z')]

/-- lowerChar lower-cases one character (ASCII model of Go's per-rune
lowering). -/
def lowerChar (c : Char) : Char :=
  match asciiUpperLower.find? (fun p => p.1 == c) with
  | some p => p.2
  | none => c

/-- toLowerStr models `strings.ToLower` on the ASCII range. -/
def toLowerStr (s : String) : String := String.mk (s.data.map lowerChar)

/-- goBase models `filepath.Base` with slash separators: empty path gives
".", trailing separators are stripped, the suffix after the last separator is
returned, and an all-separator path gives "/". -/
def goBase (path : String) : String :=
  if path = "" then "."
  else
    let trimmed := (path.data.reverse.dropWhile (fun c => c == '/')).reverse
    if trimmed = [] then "/"
    else String.mk ((trimmed.reverse.takeWhile (fun c => !(c == '/'))).reverse)

/-- Options is the source's `Options` struct: flag toggles plus the two
positional arguments. -/
structure Options where
  isFileOnly : Bool
  isDirOnly : Bool
  isCaseSensitive : Bool
  directory : String
  pattern : String
deriving DecidableEq, Repr

/-- ParseResult is the outcome of `ParseFlags`: the help short-circuit
(`displayHelp` + `os.Exit(0)` in the source), a successfully resolved
`Options`, or an error message. -/
inductive ParseResult where
  | helpExit
  | ok (opts : Options)
  | err (msg : String)
deriving DecidableEq, Repr

/-- isFileTok recognizes the file-only flag tokens of the source's switch. -/
def isFileTok (a : String) : Bool := a == "-f" || a == "--file"

/-- isDirTok recognizes the directory-only flag tokens. -/
def isDirTok (a : String) : Bool := a == "-d" || a == "--dir"

/-- isCaseTok recognizes the case-sensitivity flag tokens. -/
def isCaseTok (a : String) : Bool := a == "-c" || a == "--casesensitive"

/-- isHelpTok recognizes the help flag tokens. -/
def isHelpTok (a : String) : Bool := a == "-h" || a == "--help"

/-- isFlagTok recognizes any token consumed as a flag by the source's
switch; every other token is collected as a positional argument. -/
def isFlagTok (a : String) : Bool :=
  isFileTok a || isDirTok a || isCaseTok a || isHelpTok a

/-- argLoop embeds the `for _, arg := range args` loop of `ParseFlags`
(search.go:27-42): flag tokens set the corresponding toggle, a help token
short-circuits (modelled by `none`), and any other token is appended to the
positional list. -/
def argLoop : List String → Bool → Bool → Bool → List String →
    Option (Bool × Bool × Bool × List String)
  | [], f, d, c, pos => some (f, d, c, pos)
  | a :: rest, f, d, c, pos =>
    if isFileTok a then argLoop rest true d c pos
    else if isDirTok a then argLoop rest f true c pos
    else if isCaseTok a then argLoop rest f d true pos
    else if isHelpTok a then none
    else argLoop rest f d c (pos ++ [a])

/-- ParseFlags embeds `ParseFlags` (search.go:22-56) applied to the argument
vector after the program name: after classifying the tokens, exactly two
positionals must remain (otherwise the positional-count error), then the two
type toggles must not both be set (otherwise the mutual-exclusion error). -/
def ParseFlags (args : List String) : ParseResult :=
  match argLoop args false false false [] with
  | none => .helpExit
  | some (f, d, c, pos) =>
    match pos with
    | [dir, pat] =>
      if f && d then
        .err "you cannot use both --fileonly and --dironly at the same time"
      else .ok ⟨f, d, c, dir, pat⟩
    | _ => .err "invalid number of positional arguments"

/-- CbRes is the result of one callback invocation of the walk: `ok` models
a `nil` return, `skipDir` models `filepath.SkipDir`, `fail` models any other
non-nil error. -/
inductive CbRes where
  | ok
  | skipDir
  | fail (msg : String)
deriving DecidableEq, Repr

/-- SearchState is the mutable state shared by the walk and the spawned
match tasks in `Search`: the `matches` accumulator, the captured `pattern`
variable (assigned by the goroutine body when the search is
case-insensitive), and the diagnostic lines printed so far. -/
structure SearchState where
  found : List String
  pattern : String
  log : List String
deriving DecidableEq, Repr

/-- matchTask embeds the goroutine body spawned per surviving entry
(search.go:90-106): take the base name, lower-case both the base name and the
shared `pattern` variable when case-insensitive, run the glob matcher, and on
a clean positive match append the original path to the shared match list. -/
def matchTask (m : String → String → Option Bool) (cs : Bool) (path : String)
    (s : SearchState) : SearchState :=
  let baseName := goBase path
  let bn := if cs then baseName else toLowerStr baseName
  let s1 := if cs then s else { s with pattern := toLowerStr s.pattern }
  match m s1.pattern bn with
  | some true => { s1 with found := s1.found ++ [path] }
  | _ => s1

/-- diagLine renders the per-entry diagnostic printed by the callback's
error branch (search.go:65-78): the path for a recognized access-denied
error, otherwise the raw error text. -/
def diagLine (path : String) : ErrKind → String
  | .accessDenied => "Skipping: " ++ path ++ " (Access Denied)"
  | .other msg => "Skipping: " ++ msg ++ " (Unhandle Error)"

/-- searchCb embeds the `filepath.WalkDir` callback of `Search`
(search.go:64-108): an error entry is logged and the walk told to continue
(`nil` return); a surviving entry (after the two type-filter checks) runs the
match task; every branch returns `nil`. -/
def searchCb (m : String → String → Option Bool) (f d cs : Bool)
    (st : SearchState) (path : String) (isDir : Bool) (e : Option ErrKind) :
    SearchState × CbRes :=
  match e with
  | some k => ({ st with log := st.log ++ [diagLine path k] }, CbRes.ok)
  | none =>
    if f && isDir then (st, CbRes.ok)
    else if d && !isDir then (st, CbRes.ok)
    else (matchTask m cs path st, CbRes.ok)

mutual

/-- walkNode embeds `walkDir` from Go's `path/filepath` on one entry: call
the callback on the entry; for a directory, on success recurse into the
children (or report the read error through a second callback call), on
`SkipDir` skip the subtree, on a plain error abort. -/
def walkNode {σ : Type} (fn : σ → String → Bool → Option ErrKind → σ × CbRes)
    (st : σ) (path : String) : FSNode → σ × CbRes
  | .file _ => fn st path false none
  | .dir _ readErr children =>
    match fn st path true none with
    | (st1, CbRes.ok) =>
      match readErr with
      | some k =>
        match fn st1 path true (some k) with
        | (st2, CbRes.ok) => (st2, CbRes.ok)
        | (st2, CbRes.skipDir) => (st2, CbRes.ok)
        | (st2, CbRes.fail e) => (st2, CbRes.fail e)
      | none => walkChildren fn st1 path children
    | (st1, CbRes.skipDir) => (st1, CbRes.ok)
    | (st1, CbRes.fail e) => (st1, CbRes.fail e)

/-- walkChildren embeds the sibling loop of `walkDir`: walk each child in
order; `SkipDir` from a child breaks the loop, a plain error aborts. -/
def walkChildren {σ : Type}
    (fn : σ → String → Bool → Option ErrKind → σ × CbRes)
    (st : σ) (path : String) : List FSNode → σ × CbRes
  | [] => (st, CbRes.ok)
  | c :: cs =>
    match walkNode fn st (joinPath path c.name) c with
    | (st1, CbRes.ok) => walkChildren fn st1 path cs
    | (st1, CbRes.skipDir) => (st1, CbRes.ok)
    | (st1, CbRes.fail e) => (st1, CbRes.fail e)

end

/-- goWalkDirTop embeds `filepath.WalkDir` itself: a failing `os.Lstat` on
the root reaches the callback as a top-level error entry; otherwise the root
entry is walked; `SkipDir` at the top is converted to `nil`, a plain error is
returned to the caller of `WalkDir`. -/
def goWalkDirTop {σ : Type}
    (fn : σ → String → Bool → Option ErrKind → σ × CbRes)
    (st : σ) (rootDir : String) (fs : FSRoot) : σ × Option String :=
  let r := match fs with
    | FSRoot.missing k => fn st rootDir false (some k)
    | FSRoot.present n => walkNode fn st rootDir n
  match r with
  | (st1, CbRes.fail e) => (st1, some e)
  | (st1, _) => (st1, none)

/-- SearchResult is what `Search` returns to `main`: the match list, the
diagnostic lines printed during the walk, and the error of the top-level
`filepath.WalkDir` call. -/
structure SearchResult where
  found : List String
  log : List String
  err : Option String
deriving DecidableEq, Repr

/-- Search embeds `Search` (search.go:59-112), parameterized by the glob
matcher `m` (modelling `filepath.Match`; `none` is a bad-pattern error) and
by the modelled filesystem: run the walk with the callback over the initial
state, join, and return the accumulated matches together with the walk's
error. -/
def Search (m : String → String → Option Bool) (rootDir pattern : String)
    (isFileOnly isDirOnly isCaseSensitive : Bool) (fs : FSRoot) :
    SearchResult :=
  let r := goWalkDirTop (searchCb m isFileOnly isDirOnly isCaseSensitive)
    ⟨[], pattern, []⟩ rootDir fs
  ⟨r.1.found, r.1.log, r.2⟩

/-- MainResult is the observable outcome of `main` (search.go:119-151). -/
inductive MainResult where
  | helpShown
  | usage (msg : String)
  | searchFail (msg : String)
  | output (lines : List String)
deriving DecidableEq, Repr

/-- exitCode gives the process exit code of each `main` outcome: `os.Exit(1)`
only on a parse error; the search-error branch merely `return`s from `main`,
so the process exits 0 there, as it does on normal output and on help. -/
def exitCode : MainResult → Nat
  | .usage _ => 1
  | _ => 0

/-- mainRun embeds `main`: parse the argument vector (after the program
name), run the search, and print either the search error, the no-match line,
or the header plus the matched paths. -/
def mainRun (m : String → String → Option Bool) (args : List String)
    (fs : FSRoot) : MainResult :=
  match ParseFlags args with
  | .helpExit => .helpShown
  | .err msg => .usage msg
  | .ok o =>
    let r := Search m o.directory o.pattern o.isFileOnly o.isDirOnly
      o.isCaseSensitive fs
    match r.err with
    | some msg => .searchFail msg
    | none =>
      if r.found = [] then .output ["No path matches the pattern"]
      else .output ("Found Paths:" :: r.found)

/-- foldCase applies the configured case folding: identity when the search
is case-sensitive, ASCII lower-casing otherwise. -/
def foldCase (cs : Bool) (s : String) : String := if cs then s else toLowerStr s

/-- matchTest is the per-path outcome of the match task: the glob matcher,
applied to the case-folded pattern and the case-folded base name, returns a
clean positive match. -/
def matchTest (m : String → String → Option Bool) (pat : String) (cs : Bool)
    (path : String) : Bool :=
  match m (foldCase cs pat) (foldCase cs (goBase path)) with
  | some true => true
  | _ => false

/-- typeFilter tells whether an entry of the given kind survives the two
type-filter checks of the callback (search.go:81-86). -/
def typeFilter (f d isDir : Bool) : Bool := !(f && isDir) && !(d && !isDir)

mutual

/-- entriesOfNode lists, in discovery order, every successfully visited
entry (path and directory flag) of the walk below one node: the node itself,
then — only when the node is a directory whose read succeeds — the entries of
its children. -/
def entriesOfNode : String → FSNode → List (String × Bool)
  | path, .file _ => [(path, false)]
  | path, .dir _ none children => (path, true) :: entriesOfChildren path children
  | path, .dir _ (some _) _ => [(path, true)]

/-- entriesOfChildren concatenates the visited entries of a child list. -/
def entriesOfChildren : String → List FSNode → List (String × Bool)
  | _, [] => []
  | path, c :: cs =>
    entriesOfNode (joinPath path c.name) c ++ entriesOfChildren path cs

end

/-- entriesOf lists every successfully visited entry of the whole walk; a
missing root yields none. -/
def entriesOf (rootDir : String) : FSRoot → List (String × Bool)
  | .missing _ => []
  | .present n => entriesOfNode rootDir n

mutual

/-- logsOfNode lists, in discovery order, the diagnostic lines produced
below one node: one line per failing directory read. -/
def logsOfNode : String → FSNode → List String
  | _, .file _ => []
  | path, .dir _ none children => logsOfChildren path children
  | path, .dir _ (some k) _ => [diagLine path k]

/-- logsOfChildren concatenates the diagnostic lines of a child list. -/
def logsOfChildren : String → List FSNode → List String
  | _, [] => []
  | path, c :: cs =>
    logsOfNode (joinPath path c.name) c ++ logsOfChildren path cs

end

/-- logsOf lists the diagnostic lines of the whole walk; a missing root
yields exactly its own diagnostic. -/
def logsOf (rootDir : String) : FSRoot → List String
  | .missing k => [diagLine rootDir k]
  | .present n => logsOfNode rootDir n

/-- entrySel tells whether a visited entry both survives the type filter and
passes the match test. -/
def entrySel (m : String → String → Option Bool) (pat : String)
    (f d cs : Bool) (e : String × Bool) : Bool :=
  typeFilter f d e.2 && matchTest m pat cs e.1

/-- selMatches restricts a visited-entry list to the selected entries and
keeps their paths. -/
def selMatches (m : String → String → Option Bool) (pat : String)
    (f d cs : Bool) (es : List (String × Bool)) : List String :=
  (es.filter (entrySel m pat f d cs)).map Prod.fst

/-- litMatcher is a concrete glob-matcher instantiation used for witnesses:
a pattern without wildcards matches exactly itself (the behavior of
`filepath.Match` on wildcard-free patterns). -/
def litMatcher : String → String → Option Bool := fun p n => some (p == n)

/-- noneMatcher is a concrete matcher instantiation whose every call reports
a bad pattern, modelling `filepath.Match` on a malformed pattern. -/
def noneMatcher : String → String → Option Bool := fun _ _ => none

/-- isUsageErr tells whether a parse outcome is an error (the source's
non-nil error return from `ParseFlags`, which `main` answers with usage text
and `os.Exit(1)`). -/
def isUsageErr : ParseResult → Bool
  | .err _ => true
  | _ => false

/-- asciiUpperLower_snd_not_key: no lowercase letter produced by the table is
itself a key of the table, so lower-casing is idempotent per character. -/
theorem asciiUpperLower_snd_not_key :
    ∀ p ∈ asciiUpperLower,
      asciiUpperLower.find? (fun q => q.1 == p.2) = none := by
  decide

/-- lowerChar_find?_none: characters outside the table are fixed. -/
theorem lowerChar_find?_none (c : Char)
    (h : asciiUpperLower.find? (fun p => p.1 == c) = none) : lowerChar c = c := by
  unfold lowerChar
  rw [h]

/-- lowerChar_find?_some: characters inside the table map to their table
image. -/
theorem lowerChar_find?_some (c : Char) (p : Char × Char)
    (h : asciiUpperLower.find? (fun q => q.1 == c) = some p) :
    lowerChar c = p.2 := by
  unfold lowerChar
  rw [h]

/-- lowerChar_idem: per-character lower-casing is idempotent. -/
theorem lowerChar_idem (c : Char) : lowerChar (lowerChar c) = lowerChar c := by
  cases h : asciiUpperLower.find? (fun p => p.1 == c) with
  | none => rw [lowerChar_find?_none c h, lowerChar_find?_none c h]
  | some p =>
    rw [lowerChar_find?_some c p h,
      lowerChar_find?_none p.2 (asciiUpperLower_snd_not_key p (List.mem_of_find?_eq_some h))]

/-- toLowerStr_idem: lower-casing a string is idempotent, so the source's
repeated `pattern = strings.ToLower(pattern)` always leaves the same lowered
pattern. -/
theorem toLowerStr_idem (s : String) : toLowerStr (toLowerStr s) = toLowerStr s := by
  unfold toLowerStr
  congr 1
  rw [show (String.mk (s.data.map lowerChar)).data = s.data.map lowerChar from rfl,
    List.map_map]
  exact List.map_congr_left fun a _ => lowerChar_idem a

/-- PatInv is the invariant maintained on the shared `pattern` field of the
walk state: it is the original pattern until the first case-insensitive match
task lower-cases it, and lower-casing keeps it in the same two-element set. -/
def PatInv (cs : Bool) (pat P : String) : Prop :=
  (cs = true → P = pat) ∧ (P = pat ∨ P = toLowerStr pat)

/-- matchTask_eq characterizes one match task on a state satisfying the
pattern invariant: it appends the path exactly when the case-folded base name
cleanly matches the case-folded pattern, updates the shared pattern to its
case-folded form, leaves the log alone, and preserves the invariant. -/
theorem matchTask_eq (m : String → String → Option Bool) (cs : Bool)
    (pat path : String) (M L : List String) (P : String)
    (hP : PatInv cs pat P) :
    matchTask m cs path ⟨M, P, L⟩ =
      ⟨M ++ (if matchTest m pat cs path then [path] else []),
       if cs then P else toLowerStr pat, L⟩ ∧
    PatInv cs pat (if cs then P else toLowerStr pat) := by
  cases cs with
  | true =>
    have hpat : P = pat := hP.1 rfl
    subst hpat
    refine ⟨?_, hP⟩
    simp only [matchTask, matchTest, foldCase, if_true]
    cases hm : m P (goBase path) with
    | none => simp [hm]
    | some b => cases b <;> simp [hm]
  | false =>
    have hlow : toLowerStr P = toLowerStr pat := by
      rcases hP.2 with h | h
      · rw [h]
      · rw [h, toLowerStr_idem]
    constructor
    · simp only [matchTask, matchTest, foldCase, if_false, Bool.false_eq_true]
      simp only [hlow]
      cases hm : m (toLowerStr pat) (toLowerStr (goBase path)) with
      | none => simp [hm]
      | some b => cases b <;> simp [hm]
    · exact ⟨fun h => absurd h (by simp), Or.inr (by simp)⟩

/-- selMatches_append: selection distributes over entry-list concatenation. -/
theorem selMatches_append (m : String → String → Option Bool) (pat : String)
    (f d cs : Bool) (a b : List (String × Bool)) :
    selMatches m pat f d cs (a ++ b) =
      selMatches m pat f d cs a ++ selMatches m pat f d cs b := by
  simp [selMatches, List.filter_append]

/-- selMatches_cons: selection on a cons keeps the head path exactly when
the head entry is selected. -/
theorem selMatches_cons (m : String → String → Option Bool) (pat : String)
    (f d cs : Bool) (e : String × Bool) (es : List (String × Bool)) :
    selMatches m pat f d cs (e :: es) =
      (if entrySel m pat f d cs e then [e.1] else []) ++ selMatches m pat f d cs es := by
  simp only [selMatches, List.filter_cons]
  split <;> simp

mutual

/-- walkNode_cb characterizes the embedded `Search` callback over one node:
no branch aborts or prunes, the match list grows by exactly the selected
entries of the subtree, and the log grows by exactly the subtree's
diagnostics. -/
theorem walkNode_cb (m : String → String → Option Bool) (f d cs : Bool)
    (pat : String) (n : FSNode) (M L : List String) (P : String)
    (path : String) (hP : PatInv cs pat P) :
    ∃ P2, PatInv cs pat P2 ∧
      walkNode (searchCb m f d cs) ⟨M, P, L⟩ path n =
        (⟨M ++ selMatches m pat f d cs (entriesOfNode path n), P2,
          L ++ logsOfNode path n⟩, CbRes.ok) := by
  cases n with
  | file name =>
    cases d with
    | true =>
      refine ⟨P, hP, ?_⟩
      simp [walkNode, searchCb, entriesOfNode, logsOfNode, selMatches, entrySel,
        typeFilter]
    | false =>
      obtain ⟨heq, hinv⟩ := matchTask_eq m cs pat path M L P hP
      refine ⟨if cs then P else toLowerStr pat, hinv, ?_⟩
      simp [walkNode, searchCb, heq, entriesOfNode, logsOfNode, selMatches_cons,
        selMatches, entrySel, typeFilter]
      cases hmt : matchTest m pat cs path <;>
        simp [entrySel, typeFilter, List.filter_cons, hmt]
  | dir name readErr children =>
    cases f with
    | true =>
      cases readErr with
      | some k =>
        refine ⟨P, hP, ?_⟩
        simp [walkNode, searchCb, entriesOfNode, logsOfNode, selMatches, entrySel,
          typeFilter]
      | none =>
        obtain ⟨P2, hinv, heq⟩ := walkChildren_cb m true d cs pat children M L P path hP
        refine ⟨P2, hinv, ?_⟩
        simp [walkNode, searchCb, heq, entriesOfNode, logsOfNode, selMatches_cons,
          entrySel, typeFilter]
    | false =>
      obtain ⟨heq1, hinv1⟩ := matchTask_eq m cs pat path M L P hP
      cases readErr with
      | some k =>
        refine ⟨if cs then P else toLowerStr pat, hinv1, ?_⟩
        simp [walkNode, searchCb, heq1, entriesOfNode, logsOfNode, selMatches_cons,
          selMatches, entrySel, typeFilter]
        cases hmt : matchTest m pat cs path <;>
          simp [entrySel, typeFilter, List.filter_cons, hmt]
      | none =>
        obtain ⟨P2, hinv2, heq2⟩ := walkChildren_cb m false d cs pat children
          (M ++ (if matchTest m pat cs path then [path] else [])) L
          (if cs then P else toLowerStr pat) path hinv1
        refine ⟨P2, hinv2, ?_⟩
        simp [walkNode, searchCb, heq1, heq2, entriesOfNode, logsOfNode,
          selMatches_cons, entrySel, typeFilter, List.append_assoc]

/-- walkChildren_cb characterizes the embedded callback over a child list. -/
theorem walkChildren_cb (m : String → String → Option Bool) (f d cs : Bool)
    (pat : String) (l : List FSNode) (M L : List String) (P : String)
    (path : String) (hP : PatInv cs pat P) :
    ∃ P2, PatInv cs pat P2 ∧
      walkChildren (searchCb m f d cs) ⟨M, P, L⟩ path l =
        (⟨M ++ selMatches m pat f d cs (entriesOfChildren path l), P2,
          L ++ logsOfChildren path l⟩, CbRes.ok) := by
  cases l with
  | nil =>
    exact ⟨P, hP, by simp [walkChildren, entriesOfChildren, logsOfChildren, selMatches]⟩
  | cons c cs' =>
    obtain ⟨P1, hinv1, heq1⟩ := walkNode_cb m f d cs pat c M L P
      (joinPath path c.name) hP
    obtain ⟨P2, hinv2, heq2⟩ := walkChildren_cb m f d cs pat cs'
      (M ++ selMatches m pat f d cs (entriesOfNode (joinPath path c.name) c))
      (L ++ logsOfNode (joinPath path c.name) c) P1 path hinv1
    refine ⟨P2, hinv2, ?_⟩
    simp [walkChildren, heq1, heq2, entriesOfChildren, logsOfChildren,
      selMatches_append, List.append_assoc]

end

/-- Search_eq: the embedded `Search` returns exactly the paths of the
successfully visited entries that survive the type filter and pass the match
test, produces exactly the walk's diagnostics, and returns no error (every
branch of the callback, the top-level error branch included, returns `nil`). -/
theorem Search_eq (m : String → String → Option Bool) (rootDir pat : String)
    (f d cs : Bool) (fs : FSRoot) :
    Search m rootDir pat f d cs fs =
      ⟨selMatches m pat f d cs (entriesOf rootDir fs), logsOf rootDir fs, none⟩ := by
  cases fs with
  | missing k =>
    simp [Search, goWalkDirTop, searchCb, entriesOf, logsOf, selMatches]
  | present n =>
    obtain ⟨P2, hinv, heq⟩ := walkNode_cb m f d cs pat n [] [] pat rootDir
      ⟨fun _ => rfl, Or.inl rfl⟩
    simp [Search, goWalkDirTop, heq, entriesOf, logsOf]

/-- argLoop_eq characterizes the flag loop: a help token anywhere
short-circuits; otherwise each toggle records whether its token occurs, and
the non-flag tokens are appended to the positional list in order. -/
theorem argLoop_eq (args : List String) (f d c : Bool) (pos : List String) :
    argLoop args f d c pos =
      if args.any isHelpTok then none
      else some (f || args.any isFileTok, d || args.any isDirTok,
        c || args.any isCaseTok, pos ++ args.filter (fun a => !isFlagTok a)) := by
  induction args generalizing f d c pos with
  | nil => simp [argLoop]
  | cons a rest ih =>
    by_cases h1 : isFileTok a = true
    · rcases (show a = "-f" ∨ a = "--file" by simpa [isFileTok] using h1)
        with rfl | rfl <;>
        simp [argLoop, ih, isHelpTok, isFileTok, isDirTok, isCaseTok, isFlagTok]
    · by_cases h2 : isDirTok a = true
      · rcases (show a = "-d" ∨ a = "--dir" by simpa [isDirTok] using h2)
          with rfl | rfl <;>
          simp [argLoop, ih, isHelpTok, isFileTok, isDirTok, isCaseTok, isFlagTok]
      · by_cases h3 : isCaseTok a = true
        · rcases (show a = "-c" ∨ a = "--casesensitive" by simpa [isCaseTok] using h3)
            with rfl | rfl <;>
            simp [argLoop, ih, isHelpTok, isFileTok, isDirTok, isCaseTok, isFlagTok]
        · by_cases h4 : isHelpTok a = true
          · rcases (show a = "-h" ∨ a = "--help" by simpa [isHelpTok] using h4)
              with rfl | rfl <;>
              simp [argLoop, isHelpTok, isFileTok, isDirTok, isCaseTok, isFlagTok]
          · simp only [Bool.not_eq_true] at h1 h2 h3 h4
            simp [argLoop, ih, h1, h2, h3, h4, isFlagTok]

/-- entriesOfChildren_append: visited entries distribute over sibling-list
concatenation. -/
theorem entriesOfChildren_append (path : String) (a b : List FSNode) :
    entriesOfChildren path (a ++ b) =
      entriesOfChildren path a ++ entriesOfChildren path b := by
  induction a with
  | nil => simp [entriesOfChildren]
  | cons c cs ih => simp [entriesOfChildren, ih]

/-- logsOfChildren_append: diagnostics distribute over sibling-list
concatenation. -/
theorem logsOfChildren_append (path : String) (a b : List FSNode) :
    logsOfChildren path (a ++ b) =
      logsOfChildren path a ++ logsOfChildren path b := by
  induction a with
  | nil => simp [logsOfChildren]
  | cons c cs ih => simp [logsOfChildren, ih]

/-- matchTest_true_iff: the Boolean match test holds exactly when the
matcher returns a clean positive match on the case-folded pattern and
case-folded base name. -/
theorem matchTest_true_iff (m : String → String → Option Bool) (pat : String)
    (cs : Bool) (path : String) :
    matchTest m pat cs path = true ↔
      m (foldCase cs pat) (foldCase cs (goBase path)) = some true := by
  unfold matchTest
  cases hm : m (foldCase cs pat) (foldCase cs (goBase path)) with
  | none => simp
  | some b => cases b <;> simp

/-- C3: for every directory entry in the tree, setting fileOnly or dirOnly
only excludes entries from the match test and never prunes descent — under
fileOnly the result is exactly the non-directory entries of the whole walk
passing the match test (so children of a filtered-out directory are still
visited and tested), and dually under dirOnly. -/
theorem c3_type_filters_never_prune (m : String → String → Option Bool)
    (rootDir pat : String) (cs : Bool) (fs : FSRoot) :
    (Search m rootDir pat true false cs fs).found =
      ((entriesOf rootDir fs).filter
        (fun e => !e.2 && matchTest m pat cs e.1)).map Prod.fst ∧
    (Search m rootDir pat false true cs fs).found =
      ((entriesOf rootDir fs).filter
        (fun e => e.2 && matchTest m pat cs e.1)).map Prod.fst := by
  constructor <;>
  · rw [Search_eq]
    simp only [selMatches]
    congr 1
    exact List.filter_congr (fun e _ => by simp [entrySel, typeFilter])

/-- C4: a successfully visited entry surviving the type filter is in the
result exactly when its case-folded base name cleanly matches the case-folded
pattern; nothing but the base name of the stored path enters the test. -/
theorem c4_match_iff_folded_basename (m : String → String → Option Bool)
    (rootDir pat : String) (f d cs : Bool) (fs : FSRoot) (p : String) (b : Bool)
    (hent : (p, b) ∈ entriesOf rootDir fs) (hfilt : typeFilter f d b = true) :
    p ∈ (Search m rootDir pat f d cs fs).found ↔
      m (foldCase cs pat) (foldCase cs (goBase p)) = some true := by
  rw [Search_eq]
  constructor
  · intro hp
    simp only [selMatches, List.mem_map, List.mem_filter] at hp
    obtain ⟨e, ⟨hmem, hsel⟩, hfst⟩ := hp
    rw [← matchTest_true_iff]
    have := (Bool.and_eq_true _ _).mp (by simpa [entrySel] using hsel)
    rw [← hfst]
    exact this.2
  · intro hm
    simp only [selMatches, List.mem_map, List.mem_filter]
    refine ⟨(p, b), ⟨hent, ?_⟩, rfl⟩
    simp [entrySel, hfilt, matchTest_true_iff, hm]

/-- C5: against a malformed pattern (one the matcher rejects on every name),
no entry is added to the result and no error is raised or surfaced. -/
theorem c5_bad_pattern_no_match_no_error (m : String → String → Option Bool)
    (rootDir pat : String) (f d cs : Bool) (fs : FSRoot)
    (hmal : ∀ nm, m (foldCase cs pat) nm = none) :
    (Search m rootDir pat f d cs fs).found = [] ∧
    (Search m rootDir pat f d cs fs).err = none := by
  rw [Search_eq]
  refine ⟨?_, rfl⟩
  have hsel : ∀ e ∈ entriesOf rootDir fs, ¬(entrySel m pat f d cs e = true) := by
    intro e _
    simp [entrySel, matchTest, hmal]
  simp only [selMatches]
  rw [List.filter_eq_nil_iff.mpr hsel]
  rfl

/-- C10: every path stored in the result MatchSet is exactly a path yielded
by the traversal primitive, with its original casing — the case folding done
for the match test never reaches the stored strings. -/
theorem c10_stored_path_as_yielded (m : String → String → Option Bool)
    (rootDir pat : String) (f d cs : Bool) (fs : FSRoot) (p : String)
    (hp : p ∈ (Search m rootDir pat f d cs fs).found) :
    ∃ b, (p, b) ∈ entriesOf rootDir fs := by
  rw [Search_eq] at hp
  simp only [selMatches, List.mem_map, List.mem_filter] at hp
  obtain ⟨⟨p1, b⟩, ⟨hmem, hsel⟩, hfst⟩ := hp
  cases hfst
  exact ⟨b, hmem⟩

/-- demoTree is the concrete tree root/{a.txt, B.TXT, sub/a.txt} used by
witnesses. -/
def demoTree : FSRoot :=
  FSRoot.present (FSNode.dir "root" none
    [FSNode.file "a.txt", FSNode.file "B.TXT",
     FSNode.dir "sub" none [FSNode.file "a.txt"]])

/-- missingRootErr is the modelled `os.Lstat` failure for a nonexistent root
path. -/
def missingRootErr : ErrKind :=
  ErrKind.other "lstat /missing: no such file or directory"

/-- C1: the claim says a nonexistent root surfaces a `TraversalError` to the
caller with exit code 1 and no match output; the code instead swallows the
top-level error inside the walk callback (which logs a Skipping diagnostic
and returns `nil`, despite its comment saying it returns other error kinds),
so `Search` returns a nil error, `main` prints the no-match line, and the
process exits 0.  This theorem evaluates the embedded program at the failing
input. -/
theorem c1_missing_root_swallowed :
    (Search litMatcher "/missing" "a.txt" false false false
      (FSRoot.missing missingRootErr)).err = none ∧
    (Search litMatcher "/missing" "a.txt" false false false
      (FSRoot.missing missingRootErr)).log =
      ["Skipping: lstat /missing: no such file or directory (Unhandle Error)"] ∧
    mainRun litMatcher ["/missing", "a.txt"] (FSRoot.missing missingRootErr) =
      MainResult.output ["No path matches the pattern"] ∧
    exitCode (mainRun litMatcher ["/missing", "a.txt"]
      (FSRoot.missing missingRootErr)) = 0 := by
  decide

/-- C2: a per-entry error during the walk (here: a subdirectory whose read
fails, sitting anywhere among its siblings) is logged as a diagnostic, never
aborts the walk, and is never propagated: the search returns with a nil
error, the diagnostic for the failing directory is in the log, and every
match contributed by the sibling subtrees is still in the result. -/
theorem c2_per_entry_errors_recovered (m : String → String → Option Bool)
    (rootDir pat : String) (f d cs : Bool) (rname bname : String)
    (bkind : ErrKind) (bch l1 l2 : List FSNode) :
    (∀ fs : FSRoot, (Search m rootDir pat f d cs fs).err = none) ∧
    diagLine (joinPath rootDir bname) bkind ∈
      (Search m rootDir pat f d cs (FSRoot.present (FSNode.dir rname none
        (l1 ++ FSNode.dir bname (some bkind) bch :: l2)))).log ∧
    ∀ p, p ∈ selMatches m pat f d cs
        (entriesOfChildren rootDir l1 ++ entriesOfChildren rootDir l2) →
      p ∈ (Search m rootDir pat f d cs (FSRoot.present (FSNode.dir rname none
        (l1 ++ FSNode.dir bname (some bkind) bch :: l2)))).found := by
  refine ⟨fun fs => by rw [Search_eq], ?_, ?_⟩
  all_goals simp only [Search_eq]
  · simp [logsOf, logsOfNode, logsOfChildren_append, logsOfChildren, FSNode.name]
  · intro p hp
    rw [selMatches_append, List.mem_append] at hp
    simp only [entriesOf, entriesOfNode, entriesOfChildren_append,
      entriesOfChildren, selMatches_cons, selMatches_append, List.mem_append]
    tauto

/-- Witness for C2: with an access-denied subdirectory listed before a
matching sibling file, the sibling match is still found. -/
theorem c2_witness :
    "root/a.txt" ∈ (Search litMatcher "root" "a.txt" false false false
      (FSRoot.present (FSNode.dir "root" none
        [FSNode.dir "locked" (some ErrKind.accessDenied) [],
         FSNode.file "a.txt"]))).found :=
  (c2_per_entry_errors_recovered litMatcher "root" "a.txt" false false false
    "root" "locked" ErrKind.accessDenied [] []
    [FSNode.file "a.txt"]).2.2 "root/a.txt" (by decide)

/-- Witness for C4 at a concrete entry of the concrete tree. -/
theorem c4_witness :
    "root/a.txt" ∈ (Search litMatcher "root" "a.txt" false false false
        demoTree).found ↔
      litMatcher (foldCase false "a.txt") (foldCase false (goBase "root/a.txt")) =
        some true :=
  c4_match_iff_folded_basename litMatcher "root" "a.txt" false false false
    demoTree "root/a.txt" false (by decide) (by decide)

/-- Witness for C5: a matcher that rejects every name (malformed pattern)
yields an empty result and no error on the concrete tree. -/
theorem c5_witness :
    (Search noneMatcher "root" "*[" false false false demoTree).found = [] ∧
    (Search noneMatcher "root" "*[" false false false demoTree).err = none :=
  c5_bad_pattern_no_match_no_error noneMatcher "root" "*[" false false false
    demoTree (fun _ => rfl)

/-- Witness for C10: the mixed-case path root/B.TXT, matched
case-insensitively against pattern b.txt, is stored with its original casing
and is one of the walk's yielded paths. -/
theorem c10_witness :
    ∃ b, ("root/B.TXT", b) ∈ entriesOf "root" demoTree :=
  c10_stored_path_as_yielded litMatcher "root" "b.txt" false false false
    demoTree "root/B.TXT" (by decide)

/-- C6: for every argument vector that resolves successfully, permuting
flags and positionals while preserving the relative order among the
positional (non-flag) tokens yields the identical resolved configuration. -/
theorem c6_parse_order_independent (args args' : List String) (o : Options)
    (hperm : args.Perm args')
    (hpos : args.filter (fun a => !isFlagTok a) =
      args'.filter (fun a => !isFlagTok a))
    (hok : ParseFlags args = ParseResult.ok o) :
    ParseFlags args' = ParseResult.ok o := by
  have hany : ∀ p : String → Bool, args.any p = args'.any p := by
    intro p
    have hiff : args.any p = true ↔ args'.any p = true := by
      simp only [List.any_eq_true]
      exact ⟨fun ⟨x, hx, hpx⟩ => ⟨x, hperm.mem_iff.mp hx, hpx⟩,
        fun ⟨x, hx, hpx⟩ => ⟨x, hperm.mem_iff.mpr hx, hpx⟩⟩
    cases h1 : args.any p <;> cases h2 : args'.any p <;> simp_all
  simp only [ParseFlags, argLoop_eq] at hok ⊢
  rw [← hany isHelpTok, ← hany isFileTok, ← hany isDirTok, ← hany isCaseTok,
    ← hpos]
  exact hok

/-- Witness for C6: moving the file-only flag in front of the positionals
resolves to the same configuration. -/
theorem c6_witness :
    ParseFlags ["-f", "a", "b"] = ParseResult.ok ⟨true, false, false, "a", "b"⟩ :=
  c6_parse_order_independent ["a", "-f", "b"] ["-f", "a", "b"]
    ⟨true, false, false, "a", "b"⟩ (by decide) (by decide) (by decide)

/-- Counterexample for C7: the vector [-f, -d, -h] contains both type
toggles, yet resolution does not fail with a usage error — the help token
short-circuits into the help exit, which is not an error. -/
theorem c7_counterexample :
    isFileTok "-f" = true ∧ isDirTok "-d" = true ∧
    ParseFlags ["-f", "-d", "-h"] = ParseResult.helpExit ∧
    isUsageErr (ParseFlags ["-f", "-d", "-h"]) = false := by
  decide

/-- C7 (amended): an argument vector containing both the file-only and the
directory-only toggles and no help token always fails configuration
resolution with a usage error, whatever the other argument values. -/
theorem c7_amended_fails_without_help (args : List String)
    (hf : args.any isFileTok = true) (hd : args.any isDirTok = true)
    (hh : args.any isHelpTok = false) :
    isUsageErr (ParseFlags args) = true := by
  cases hpos : args.filter (fun a => !isFlagTok a) with
  | nil => simp [ParseFlags, argLoop_eq, hh, hf, hd, hpos, isUsageErr]
  | cons x rest =>
    cases rest with
    | nil => simp [ParseFlags, argLoop_eq, hh, hf, hd, hpos, isUsageErr]
    | cons y rest2 =>
      cases rest2 with
      | nil => simp [ParseFlags, argLoop_eq, hh, hf, hd, hpos, isUsageErr]
      | cons z rest3 =>
        simp [ParseFlags, argLoop_eq, hh, hf, hd, hpos, isUsageErr]

/-- Witness for C7 (amended): both toggles and no help token fail with a
usage error. -/
theorem c7_witness : isUsageErr (ParseFlags ["-f", "-d"]) = true :=
  c7_amended_fails_without_help ["-f", "-d"] (by decide) (by decide) (by decide)

/-- Counterexample for C9: the vector [-h, -f, -d, x] has one positional
token (not two), yet resolution does not fail with the positional-count
error — the help token short-circuits into the help exit first. -/
theorem c9_counterexample :
    (["-h", "-f", "-d", "x"].filter (fun a => !isFlagTok a)).length = 1 ∧
    ParseFlags ["-h", "-f", "-d", "x"] = ParseResult.helpExit ∧
    ParseResult.helpExit ≠
      ParseResult.err "invalid number of positional arguments" := by
  decide

/-- C9 (amended): on a help-free argument vector whose positional count is
not exactly two, resolution fails with the positional-count error even when
both type toggles are set — the count check precedes the mutual-exclusion
check. -/
theorem c9_amended_count_precedence (args : List String)
    (hh : args.any isHelpTok = false)
    (hn : (args.filter (fun a => !isFlagTok a)).length ≠ 2) :
    ParseFlags args = ParseResult.err "invalid number of positional arguments" := by
  cases hpos : args.filter (fun a => !isFlagTok a) with
  | nil => simp [ParseFlags, argLoop_eq, hh, hpos]
  | cons x rest =>
    cases rest with
    | nil => simp [ParseFlags, argLoop_eq, hh, hpos]
    | cons y rest2 =>
      cases rest2 with
      | nil =>
        rw [hpos] at hn
        simp at hn
      | cons z rest3 => simp [ParseFlags, argLoop_eq, hh, hpos]

/-- Witness for C9 (amended): both toggles set and a single positional
token fail with the positional-count error. -/
theorem c9_witness :
    ParseFlags ["-f", "-d", "a"] =
      ParseResult.err "invalid number of positional arguments" :=
  c9_amended_count_precedence ["-f", "-d", "a"] (by decide) (by decide)

/-- Counterexample for C8: the claim says the configuration, including the
pattern, is read-only during the walk; but a case-insensitive match task
writes the lower-cased pattern back into the shared captured variable
(search.go:98), changing it from "A" to "a". -/
theorem c8_counterexample :
    (matchTask litMatcher false "x"
      { found := [], pattern := "A", log := [] }).pattern = "a" ∧
    "a" ≠ "A" := by
  decide

/-- C8 (amended): during the walk the shared mutable state is the MatchSet
together with the captured pattern string — each match task folds the shared
pattern (leaving it unchanged when case-sensitive, lower-casing it in place
otherwise) and its only other effect is at most one atomic append of its own
path to the MatchSet (the source performs that single append under the
mutex); the log and everything else are untouched by the task. -/
theorem c8_amended_task_footprint (m : String → String → Option Bool)
    (cs : Bool) (path : String) (s : SearchState) :
    (matchTask m cs path s).pattern =
      (if cs then s.pattern else toLowerStr s.pattern) ∧
    (matchTask m cs path s).log = s.log ∧
    ((matchTask m cs path s).found = s.found ∨
      (matchTask m cs path s).found = s.found ++ [path]) := by
  cases cs with
  | true =>
    cases hm : m s.pattern (goBase path) with
    | none => simp [matchTask, hm]
    | some b => cases b <;> simp [matchTask, hm]
  | false =>
    cases hm : m (toLowerStr s.pattern) (toLowerStr (goBase path)) with
    | none => simp [matchTask, hm]
    | some b => cases b <;> simp [matchTask, hm]
